import Mathlib

/-!
Shallow embedding of the `blogicum` blog application
(src/blogicum/blog/{models,forms,views}.py).

Modelling conventions:
* Timestamps (`timezone.now()`, `pub_date`, `created_at`) are integers in
  microseconds, matching the resolution of Python `datetime`.
  `timedelta(seconds=1)` is 1000000 microseconds and
  `datetime.replace(second=0, microsecond=0)` is truncation to the minute.
* Database rows are Lean structures; the database is `BlogState`, a record of
  lists of rows.  Foreign keys are stored ids (`Nat`); nullable foreign keys
  are `Option Nat`.  ORM lookups (`get_object_or_404`, attribute access
  through a foreign key) become `List.find?`.
* Each Django view becomes a function from the current state and the request
  data to the next state and an `HttpResponse`.  `@login_required` views take
  the authenticated user's id as a `Nat` (the decorator guarantees the
  requester is authenticated); views accessible anonymously take an
  `Option Nat` requester.
* `os.getenv(PYTEST_CURRENT_TEST)` truthiness is the boolean `pytestEnv`.
* Python `str.strip` is `strip` below (drop whitespace characters from both
  ends of the character list); Python `len` on the stripped comment text is
  `String.length`.
* A Python exception escaping a handler (the `AttributeError` raised by
  `post.category.is_published` when `category` is `None`) is the
  `HttpResponse.serverError` constructor; Django's `Http404` is
  `HttpResponse.notFound`.
-/

inductive HttpMethod where
  | get
  | post
deriving DecidableEq, Repr

/-- Redirect targets used by the views: `redirect('login')`,
`redirect('blog:profile', ...)` (identified here by the user's id) and
`redirect('blog:post_detail', post_id=...)`. -/
inductive RedirectTarget where
  | login
  | profile (userId : Nat)
  | postDetail (postId : Nat)
deriving DecidableEq, Repr

/-- A view's response: a rendered template, a redirect, `Http404`, or an
uncaught Python exception (HTTP 500). -/
inductive HttpResponse where
  | render (template : String)
  | redirect (target : RedirectTarget)
  | notFound
  | serverError (msg : String)
deriving DecidableEq, Repr

/-- Django auth user (the fields used by `RegistrationForm` and
`ProfileEditForm`). -/
structure User where
  id : Nat
  username : String
  email : String
  first_name : String
  last_name : String
deriving DecidableEq, Repr

/-- `blog.models.Location` (PublishedModel + CreatedModel). -/
structure Location where
  id : Nat
  name : String
  is_published : Bool
  created_at : Int
deriving DecidableEq, Repr

/-- `blog.models.Category` (PublishedModel + CreatedModel). -/
structure Category where
  id : Nat
  title : String
  description : String
  slug : String
  is_published : Bool
  created_at : Int
deriving DecidableEq, Repr

/-- `blog.models.Post`.  `author` is a non-nullable foreign key
(`on_delete=CASCADE`); `location` and `category` are nullable foreign keys
(`on_delete=SET_NULL, null=True`). -/
structure Post where
  id : Nat
  title : String
  text : String
  pub_date : Int
  image : String
  author : Nat
  location : Option Nat
  category : Option Nat
  is_published : Bool
  created_at : Int
deriving DecidableEq, Repr

/-- `blog.models.Comment`: non-nullable foreign keys to `Post`
(`on_delete=CASCADE, related_name=comments`) and to the author user
(`on_delete=CASCADE`). -/
structure Comment where
  id : Nat
  text : String
  post : Nat
  author : Nat
  created_at : Int
deriving DecidableEq, Repr

/-- The database: one list of rows per model. -/
structure BlogState where
  users : List User
  categories : List Category
  locations : List Location
  posts : List Post
  comments : List Comment
deriving DecidableEq, Repr

def findPost (s : BlogState) (postId : Nat) : Option Post :=
  s.posts.find? (fun p => p.id == postId)

def findCategory (s : BlogState) (categoryId : Nat) : Option Category :=
  s.categories.find? (fun c => c.id == categoryId)

/-- `get_object_or_404(Comment, id=comment_id, post_id=post_id)`. -/
def findComment (s : BlogState) (postId commentId : Nat) : Option Comment :=
  s.comments.find? (fun c => c.id == commentId && c.post == postId)

/-- `get_object_or_404(User, username=username)`. -/
def findUserByName (s : BlogState) (username : String) : Option User :=
  s.users.find? (fun u => u.username == username)

def userExists (s : BlogState) (userId : Nat) : Bool :=
  s.users.any (fun u => u.id == userId)

/-! ## forms.py -/

def usecPerSecond : Int := 1000000

def usecPerMinute : Int := 60000000

/-- `dt.replace(second=0, microsecond=0)`: truncate a timestamp to the
minute. -/
def truncMinute (t : Int) : Int := (t / usecPerMinute) * usecPerMinute

/-- `PostForm.clean_pub_date` (forms.py lines 64-101).
`pytestEnv` is the truthiness of `os.getenv(PYTEST_CURRENT_TEST)`;
`instancePk` is `self.instance.pk` (`none` for a new post);
`originalPubDate` is `self.original_pub_date` captured in `__init__`.
Returns the cleaned value or the `ValidationError` message key. -/
def clean_pub_date (pytestEnv : Bool) (now : Int) (instancePk : Option Nat)
    (originalPubDate : Option Int) (pubDate : Option Int) :
    Except String (Option Int) :=
  match pubDate with
  | none => .ok none
  | some p =>
    if pytestEnv then .ok (some p)
    else
      match instancePk with
      | none =>
        if p < now - usecPerSecond then
          .error "pub date in the past on a new post"
        else .ok (some p)
      | some _ =>
        match originalPubDate with
        | some o =>
          if truncMinute o = truncMinute p then .ok (some p)
          else if p < now then
            .error "pub date changed to a past moment"
          else .ok (some p)
        | none =>
          if p < now then .error "pub date in the past"
          else .ok (some p)

/-- The data a `PostForm` submission carries (fields
`title, text, image, pub_date, location, category`). -/
structure PostFormData where
  title : String
  text : String
  image : String
  pub_date : Option Int
  location : Option Nat
  category : Option Nat
deriving DecidableEq, Repr

/-- `PostForm.is_valid()`: the ModelForm required-field checks (`title`,
`text` and `pub_date` are required; `location` and `category` are required
too because the model fields set `null=True` but not `blank=True`; `image`
has `blank=True`) together with the custom `clean_pub_date` validator. -/
def postFormValid (pytestEnv : Bool) (now : Int) (instancePk : Option Nat)
    (originalPubDate : Option Int) (d : PostFormData) : Bool :=
  d.title != "" && d.text != "" && d.pub_date.isSome &&
    d.location.isSome && d.category.isSome &&
    (clean_pub_date pytestEnv now instancePk originalPubDate d.pub_date).isOk

/-- Python `str.strip()`: remove leading and trailing whitespace. -/
def strip (s : String) : String :=
  ⟨((s.data.dropWhile Char.isWhitespace).reverse.dropWhile
      Char.isWhitespace).reverse⟩

/-- `CommentForm.clean_text` (forms.py lines 143-149): strip the text,
reject the empty string and texts shorter than 5 characters, otherwise
return the stripped text. -/
def clean_text (text : String) : Except String String :=
  let t := strip text
  if t = "" then .error "comment must not be empty"
  else if t.length < 5 then .error "comment shorter than 5 characters"
  else .ok t

/-- The data a `ProfileEditForm` submission carries. -/
structure ProfileFormData where
  username : String
  email : String
  first_name : String
  last_name : String
deriving DecidableEq, Repr

/-! ## views.py -/

/-- `category__is_published=True` on the join: a null category (or a dangling
category id) fails the filter. -/
def categoryIsPublished (s : BlogState) (p : Post) : Bool :=
  match p.category with
  | none => false
  | some cid =>
    match findCategory s cid with
    | none => false
    | some c => c.is_published

/-- `get_published_posts()` (views.py lines 13-18):
`Post.objects.filter(is_published=True, category__is_published=True,
pub_date__lte=timezone.now())`. -/
def get_published_posts (now : Int) (s : BlogState) : List Post :=
  s.posts.filter (fun p =>
    p.is_published && categoryIsPublished s p && decide (p.pub_date ≤ now))

/-- The predicate `get_published_posts` filters on. -/
def publiclyVisible (now : Int) (s : BlogState) (p : Post) : Bool :=
  p.is_published && categoryIsPublished s p && decide (p.pub_date ≤ now)

/-- The `is_accessible` computation of `post_detail` (views.py lines 45-49),
with Python's short-circuit `and`: when `post.is_published` is false the
category is never dereferenced; when it is true and `post.category` is `None`
the attribute access `post.category.is_published` raises `AttributeError`. -/
def detailAccessible (now : Int) (s : BlogState) (post : Post) :
    Except String Bool :=
  if post.is_published then
    match post.category with
    | none => .error "AttributeError"
    | some cid =>
      match findCategory s cid with
      | none => .error "Category does not exist"
      | some c => .ok (c.is_published && decide (post.pub_date ≤ now))
  else .ok false

/-- `is_accessible` raises instead of returning: the post's own flag is set
and its category reference does not resolve. -/
def detailBroken (s : BlogState) (post : Post) : Bool :=
  post.is_published &&
    (match post.category with
     | none => true
     | some cid => (findCategory s cid).isNone)

/-- `post_detail` (views.py lines 35-64).  `requester` is `request.user`
(`none` when anonymous). -/
def post_detail (now : Int) (s : BlogState) (requester : Option Nat)
    (postId : Nat) : HttpResponse :=
  match findPost s postId with
  | none => .notFound
  | some post =>
    match detailAccessible now s post with
    | .error e => .serverError e
    | .ok acc =>
      if !acc && requester != some post.author then .notFound
      else .render "blog/detail.html"

/-- `category_posts` (views.py lines 67-93): 404 unless a published category
with the slug exists, else the published posts of that category (the
un-paginated `post_list`). -/
def category_posts (now : Int) (s : BlogState) (slug : String) :
    HttpResponse × List Post :=
  match s.categories.find? (fun c => c.slug == slug && c.is_published) with
  | none => (.notFound, [])
  | some c =>
    (.render "blog/category.html",
     (get_published_posts now s).filter (fun p => p.category == some c.id))

/-- `user_profile` (views.py lines 112-134): the owner sees all their posts,
everyone else only the published ones (the un-paginated `post_list`). -/
def user_profile (now : Int) (s : BlogState) (requester : Option Nat)
    (username : String) : HttpResponse × List Post :=
  match findUserByName s username with
  | none => (.notFound, [])
  | some profile =>
    if requester == some profile.id then
      (.render "blog/profile.html",
       s.posts.filter (fun p => p.author == profile.id))
    else
      (.render "blog/profile.html",
       (get_published_posts now s).filter (fun p => p.author == profile.id))

/-- `register` (views.py lines 96-109).  `RegistrationForm` validity is
Django's `UserCreationForm` validation (framework code), abstracted as the
boolean `formValid`; `newUser` is the row `form.save()` would insert. -/
def register (s : BlogState) (method : HttpMethod) (formValid : Bool)
    (newUser : User) : BlogState × HttpResponse :=
  if method = HttpMethod.post then
    if formValid then
      ({ s with users := s.users ++ [newUser] }, .redirect .login)
    else (s, .render "registration/registration_form.html")
  else (s, .render "registration/registration_form.html")

/-- `edit_profile` (views.py lines 137-151).  `ProfileEditForm` validity is
framework validation, abstracted as `formValid`; a valid save updates the
form's fields on the requesting user's row. -/
def edit_profile (s : BlogState) (user : Nat) (method : HttpMethod)
    (formValid : Bool) (d : ProfileFormData) : BlogState × HttpResponse :=
  if method = HttpMethod.post then
    if formValid then
      ({ s with users := s.users.map (fun u =>
          if u.id == user then
            { u with username := d.username, email := d.email,
                     first_name := d.first_name, last_name := d.last_name }
          else u) },
       .redirect (.profile user))
    else (s, .render "registration/registration_form.html")
  else (s, .render "registration/registration_form.html")

/-- Auto-increment primary key for a new post. -/
def nextPostId (s : BlogState) : Nat :=
  (s.posts.map (fun p => p.id)).foldr max 0 + 1

/-- Auto-increment primary key for a new comment. -/
def nextCommentId (s : BlogState) : Nat :=
  (s.comments.map (fun c => c.id)).foldr max 0 + 1

/-- The row `form.save(commit=False)` + `post.author = request.user` +
`post.save()` inserts for a new post (model defaults: `is_published=True`).
A valid form guarantees `d.pub_date` is present, so the `getD` default is
never used. -/
def newPostRow (now : Int) (s : BlogState) (user : Nat)
    (d : PostFormData) : Post :=
  { id := nextPostId s, title := d.title, text := d.text,
    pub_date := d.pub_date.getD now, image := d.image, author := user,
    location := d.location, category := d.category,
    is_published := true, created_at := now }

/-- `create_post` (views.py lines 154-170): on a valid POST, save the form
with `author = request.user` and redirect to the author's profile. -/
def create_post (now : Int) (pytestEnv : Bool) (s : BlogState) (user : Nat)
    (method : HttpMethod) (d : PostFormData) : BlogState × HttpResponse :=
  if method = HttpMethod.post then
    if postFormValid pytestEnv now none none d then
      ({ s with posts := s.posts ++ [newPostRow now s user d] },
       .redirect (.profile user))
    else (s, .render "blog/create.html")
  else (s, .render "blog/create.html")

/-- `form.save()` on an existing post: overwrite the form's fields, keep
`id`, `author`, `is_published`, `created_at`. -/
def applyPostForm (d : PostFormData) (p : Post) : Post :=
  { p with title := d.title, text := d.text, image := d.image,
           pub_date := d.pub_date.getD p.pub_date,
           location := d.location, category := d.category }

/-- `edit_post` (views.py lines 173-191): 404 if the post does not exist;
silent redirect to the detail page if the requester is not the author;
otherwise save-and-redirect on a valid POST, re-render on an invalid one. -/
def edit_post (now : Int) (pytestEnv : Bool) (s : BlogState) (user : Nat)
    (postId : Nat) (method : HttpMethod) (d : PostFormData) :
    BlogState × HttpResponse :=
  match findPost s postId with
  | none => (s, .notFound)
  | some post =>
    if post.author != user then (s, .redirect (.postDetail postId))
    else if method = HttpMethod.post then
      if postFormValid pytestEnv now (some post.id) (some post.pub_date) d then
        ({ s with posts := s.posts.map (fun q =>
            if q.id == postId then applyPostForm d q else q) },
         .redirect (.postDetail postId))
      else (s, .render "blog/create.html")
    else (s, .render "blog/create.html")

/-- `delete_post` (views.py lines 194-210).  `post.delete()` also deletes the
comments referencing the post (`Comment.post` has `on_delete=CASCADE`). -/
def delete_post (s : BlogState) (user : Nat) (postId : Nat)
    (method : HttpMethod) : BlogState × HttpResponse :=
  match findPost s postId with
  | none => (s, .notFound)
  | some post =>
    if post.author != user then (s, .redirect (.postDetail postId))
    else if method = HttpMethod.post then
      ({ s with posts := s.posts.filter (fun q => q.id != postId),
                comments := s.comments.filter (fun c => c.post != postId) },
       .redirect (.profile user))
    else (s, .render "blog/create.html")

/-- The row `form.save(commit=False)` + `comment.post = post` +
`comment.author = request.user` + `comment.save()` inserts. -/
def newCommentRow (now : Int) (s : BlogState) (user : Nat) (postId : Nat)
    (cleaned : String) : Comment :=
  { id := nextCommentId s, text := cleaned, post := postId,
    author := user, created_at := now }

/-- `add_comment` (views.py lines 213-224): 404 if the post does not exist;
otherwise validate the form and, when valid, insert a comment with
`post = post` and `author = request.user`; in both cases redirect to the
post's detail page (no re-render on an invalid form). -/
def add_comment (now : Int) (s : BlogState) (user : Nat) (postId : Nat)
    (text : String) : BlogState × HttpResponse :=
  match findPost s postId with
  | none => (s, .notFound)
  | some _ =>
    match clean_text text with
    | .ok cleaned =>
      ({ s with comments := s.comments ++ [newCommentRow now s user postId cleaned] },
       .redirect (.postDetail postId))
    | .error _ => (s, .redirect (.postDetail postId))

/-- `edit_comment` (views.py lines 227-248). -/
def edit_comment (s : BlogState) (user : Nat) (postId commentId : Nat)
    (method : HttpMethod) (text : String) : BlogState × HttpResponse :=
  match findComment s postId commentId with
  | none => (s, .notFound)
  | some comment =>
    if comment.author != user then (s, .redirect (.postDetail postId))
    else if method = HttpMethod.post then
      match clean_text text with
      | .ok cleaned =>
        ({ s with comments := s.comments.map (fun c =>
            if c.id == commentId then { c with text := cleaned } else c) },
         .redirect (.postDetail postId))
      | .error _ => (s, .render "blog/comment.html")
    else (s, .render "blog/comment.html")

/-- `delete_comment` (views.py lines 251-267). -/
def delete_comment (s : BlogState) (user : Nat) (postId commentId : Nat)
    (method : HttpMethod) : BlogState × HttpResponse :=
  match findComment s postId commentId with
  | none => (s, .notFound)
  | some comment =>
    if comment.author != user then (s, .redirect (.postDetail postId))
    else if method = HttpMethod.post then
      ({ s with comments := s.comments.filter (fun c => c.id != commentId) },
       .redirect (.postDetail postId))
    else (s, .render "blog/comment.html")

/-! ## ORM delete semantics declared in models.py -/

/-- Deleting a `Category`: `Post.category` declares
`on_delete=models.SET_NULL, null=True` (models.py lines 71-76), so the ORM
nulls the reference on dependent posts and touches nothing else. -/
def deleteCategory (s : BlogState) (categoryId : Nat) : BlogState :=
  { s with
    categories := s.categories.filter (fun c => c.id != categoryId),
    posts := s.posts.map (fun p =>
      if p.category == some categoryId then { p with category := none }
      else p) }

/-- Deleting a `Location`: `Post.location` declares
`on_delete=models.SET_NULL, null=True` (models.py lines 64-69). -/
def deleteLocation (s : BlogState) (locationId : Nat) : BlogState :=
  { s with
    locations := s.locations.filter (fun l => l.id != locationId),
    posts := s.posts.map (fun p =>
      if p.location == some locationId then { p with location := none }
      else p) }

/-! ## The state-changing operations as one step function -/

/-- One state-changing operation of the application: the mutating views plus
the two ORM deletions declared in the models. -/
inductive Op where
  | opRegister (method : HttpMethod) (formValid : Bool) (newUser : User)
  | opEditProfile (user : Nat) (method : HttpMethod) (formValid : Bool)
      (d : ProfileFormData)
  | opCreatePost (pytestEnv : Bool) (user : Nat) (method : HttpMethod)
      (d : PostFormData)
  | opEditPost (pytestEnv : Bool) (user : Nat) (postId : Nat)
      (method : HttpMethod) (d : PostFormData)
  | opDeletePost (user : Nat) (postId : Nat) (method : HttpMethod)
  | opAddComment (user : Nat) (postId : Nat) (text : String)
  | opEditComment (user : Nat) (postId commentId : Nat)
      (method : HttpMethod) (text : String)
  | opDeleteComment (user : Nat) (postId commentId : Nat)
      (method : HttpMethod)
  | opDeleteCategory (categoryId : Nat)
  | opDeleteLocation (locationId : Nat)
deriving DecidableEq, Repr

/-- The state reached by running one operation. -/
def step (now : Int) (s : BlogState) : Op → BlogState
  | .opRegister m v u => (register s m v u).1
  | .opEditProfile u m v d => (edit_profile s u m v d).1
  | .opCreatePost env u m d => (create_post now env s u m d).1
  | .opEditPost env u pid m d => (edit_post now env s u pid m d).1
  | .opDeletePost u pid m => (delete_post s u pid m).1
  | .opAddComment u pid t => (add_comment now s u pid t).1
  | .opEditComment u pid cid m t => (edit_comment s u pid cid m t).1
  | .opDeleteComment u pid cid m => (delete_comment s u pid cid m).1
  | .opDeleteCategory cid => deleteCategory s cid
  | .opDeleteLocation lid => deleteLocation s lid

/-- `@login_required`: the acting user of an operation, when it has one, is
an authenticated (hence existing) user. -/
def actingUserOk (s : BlogState) : Op → Bool
  | .opRegister _ _ _ => true
  | .opEditProfile u _ _ _ => userExists s u
  | .opCreatePost _ u _ _ => userExists s u
  | .opEditPost _ u _ _ _ => userExists s u
  | .opDeletePost u _ _ => userExists s u
  | .opAddComment u _ _ => userExists s u
  | .opEditComment u _ _ _ _ => userExists s u
  | .opDeleteComment u _ _ _ => userExists s u
  | .opDeleteCategory _ => true
  | .opDeleteLocation _ => true

/-- Referential integrity of comments: every stored comment references an
existing post and an existing user. -/
def commentRefsOk (s : BlogState) : Bool :=
  s.comments.all (fun c =>
    s.posts.any (fun p => p.id == c.post) &&
      s.users.any (fun u => u.id == c.author))

/-! ## Concrete fixtures -/

/-- A sample clock value: two minutes past the epoch, in microseconds. -/
def exNow : Int := 120000000

def exAlice : User :=
  { id := 1, username := "alice", email := "alice@example.com",
    first_name := "Alice", last_name := "Anderson" }

def exBob : User :=
  { id := 2, username := "bob", email := "bob@example.com",
    first_name := "Bob", last_name := "Brown" }

def exCarol : User :=
  { id := 3, username := "carol", email := "carol@example.com",
    first_name := "Carol", last_name := "Clark" }

def exCat : Category :=
  { id := 1, title := "General", description := "general topics",
    slug := "general", is_published := true, created_at := 0 }

/-- A published post by alice in the published category, dated in the past. -/
def exPost : Post :=
  { id := 1, title := "Hello", text := "Body", pub_date := 1000, image := "",
    author := 1, location := none, category := some 1, is_published := true,
    created_at := 0 }

def exSt : BlogState :=
  { users := [exAlice, exBob], categories := [exCat], locations := [],
    posts := [exPost], comments := [] }

/-- `exPost` with its category reference nulled (as `SET_NULL` leaves it). -/
def exPostNullCat : Post := { exPost with category := none }

def exStNullCat : BlogState :=
  { exSt with categories := [], posts := [exPostNullCat] }

def exComment : Comment :=
  { id := 1, text := "first comment", post := 1, author := 1,
    created_at := 10 }

/-- `exSt` with one comment by alice on her post. -/
def exStC : BlogState := { exSt with comments := [exComment] }

/-- A post-form submission that is valid at time `exNow` for both a new post
and an edit of `exPost`. -/
def exForm : PostFormData :=
  { title := "Title", text := "Text", image := "",
    pub_date := some exNow, location := some 1, category := some 1 }

def exProfileForm : ProfileFormData :=
  { username := "alice2", email := "alice2@example.com",
    first_name := "Alice", last_name := "Asher" }

/-! ## Theorems -/

/-- C8: a post whose own published flag is set but whose category reference
is null makes the `post_detail` visibility check dereference the null
category: the handler raises `AttributeError` for every requester (the
author included) instead of rendering or returning a not-found response. -/
theorem post_detail_null_category_crashes (now : Int) (s : BlogState)
    (postId : Nat) (post : Post) (requester : Option Nat)
    (hfind : findPost s postId = some post)
    (hpub : post.is_published = true) (hcat : post.category = none) :
    post_detail now s requester postId = .serverError "AttributeError" := by
  simp [post_detail, hfind, detailAccessible, hpub, hcat]

theorem post_detail_null_category_crashes_witness :
    post_detail exNow exStNullCat (some 2) 1 = .serverError "AttributeError" :=
  post_detail_null_category_crashes exNow exStNullCat 1 exPostNullCat
    (some 2) rfl rfl rfl

/-- C9: with `PYTEST_CURRENT_TEST` set, `clean_pub_date` accepts every
non-empty publication date unconditionally; with it unset, the same
submission (a sufficiently past date on a new post) is rejected — so the
validation outcome is not a function of the submitted data alone. -/
theorem clean_pub_date_env_dependent (now p : Int) (instancePk : Option Nat)
    (originalPubDate : Option Int) :
    clean_pub_date true now instancePk originalPubDate (some p) =
      .ok (some p) ∧
    (p < now - usecPerSecond →
      clean_pub_date false now none none (some p) =
        .error "pub date in the past on a new post") := by
  constructor
  · simp [clean_pub_date]
  · intro h
    simp [clean_pub_date, h]

theorem clean_pub_date_env_dependent_witness :
    clean_pub_date true exNow none none (some 0) = .ok (some 0) ∧
    clean_pub_date false exNow none none (some 0) =
      .error "pub date in the past on a new post" :=
  ⟨(clean_pub_date_env_dependent exNow 0 none none).1,
   (clean_pub_date_env_dependent exNow 0 none none).2 (by decide)⟩

/-- C2 counterexample: the claim says every past publication date on a new
post is rejected, but the code only rejects dates more than one second in
the past: at `now` = 2 s, the date 1.5 s (half a second in the past) is
accepted. -/
theorem clean_pub_date_grace_counterexample :
    clean_pub_date false 2000000 none none (some 1500000) =
      .ok (some 1500000) ∧ (1500000 : Int) < 2000000 := by
  constructor
  · rfl
  · decide

/-- C2 (amended): with the test environment variable unset, a new post's
date is rejected exactly when it lies more than one second before `now`;
on an edit, a date equal to the original after truncation to the minute (in
particular the unchanged original date) is always accepted, and otherwise
the date is rejected exactly when it lies before `now`. -/
theorem clean_pub_date_rules (now p : Int) :
    (clean_pub_date false now none none (some p) = .ok (some p) ↔
      now - usecPerSecond ≤ p) ∧
    (∀ (pk : Nat) (o : Int),
      (truncMinute o = truncMinute p →
        clean_pub_date false now (some pk) (some o) (some p) =
          .ok (some p)) ∧
      (truncMinute o ≠ truncMinute p →
        (clean_pub_date false now (some pk) (some o) (some p) =
            .ok (some p) ↔ now ≤ p))) := by
  refine ⟨?_, fun pk o => ⟨fun h => by simp [clean_pub_date, h], fun h => ?_⟩⟩
  · simp only [clean_pub_date, Bool.false_eq_true, if_false]
    split
    · rename_i hlt
      simp only [reduceCtorEq, false_iff, not_le]
      omega
    · rename_i hlt
      simp only [true_iff]
      omega
  · simp only [clean_pub_date, Bool.false_eq_true, if_false, h, if_false]
    split
    · rename_i hlt
      simp only [reduceCtorEq, false_iff, not_le]
      omega
    · rename_i hlt
      simp only [true_iff]
      omega

theorem clean_pub_date_rules_witness :
    clean_pub_date false 120000000 (some 1) (some 60000000)
      (some 60000001) = .ok (some 60000001) ∧
    clean_pub_date false 120000000 none none (some 119500000) =
      .ok (some 119500000) :=
  ⟨((clean_pub_date_rules 120000000 60000001).2 1 60000000).1 (by decide),
   (clean_pub_date_rules 120000000 119500000).1.mpr (by decide)⟩

/-- C3: an authenticated requester who does not own the targeted object gets
a silent redirect to the post's detail page from `edit_post`, `delete_post`,
`edit_comment` and `delete_comment`, and the state is left unchanged. -/
theorem ownership_violation_redirects (now : Int) (pytestEnv : Bool)
    (s : BlogState) (user : Nat) (postId : Nat) (method : HttpMethod)
    (d : PostFormData) (t : String) :
    (∀ post, findPost s postId = some post → post.author ≠ user →
      edit_post now pytestEnv s user postId method d =
        (s, .redirect (.postDetail postId)) ∧
      delete_post s user postId method =
        (s, .redirect (.postDetail postId))) ∧
    (∀ commentId comment,
      findComment s postId commentId = some comment →
      comment.author ≠ user →
      edit_comment s user postId commentId method t =
        (s, .redirect (.postDetail postId)) ∧
      delete_comment s user postId commentId method =
        (s, .redirect (.postDetail postId))) := by
  constructor
  · intro post hfind hown
    constructor
    · simp [edit_post, hfind, bne_iff_ne, hown]
    · simp [delete_post, hfind, bne_iff_ne, hown]
  · intro commentId comment hfind hown
    constructor
    · simp [edit_comment, hfind, bne_iff_ne, hown]
    · simp [delete_comment, hfind, bne_iff_ne, hown]

theorem ownership_violation_redirects_witness :
    edit_post exNow false exStC 2 1 HttpMethod.post exForm =
      (exStC, .redirect (.postDetail 1)) ∧
    delete_post exStC 2 1 HttpMethod.post =
      (exStC, .redirect (.postDetail 1)) ∧
    edit_comment exStC 2 1 1 HttpMethod.post "new text" =
      (exStC, .redirect (.postDetail 1)) ∧
    delete_comment exStC 2 1 1 HttpMethod.post =
      (exStC, .redirect (.postDetail 1)) := by
  have h := ownership_violation_redirects exNow false exStC 2 1
    HttpMethod.post exForm "new text"
  have hp := h.1 exPost rfl (by decide)
  have hc := h.2 1 exComment rfl (by decide)
  exact ⟨hp.1, hp.2, hc.1, hc.2⟩

/-- C10: the comment form strips leading and trailing whitespace, raises a
validation error exactly when the stripped text is empty or shorter than 5
characters, and otherwise the stored comment text is exactly the stripped
text (shown both on `clean_text` and through `add_comment`). -/
theorem clean_text_strips_and_bounds (text : String) :
    ((clean_text text).isOk = true ↔
      ¬(strip text = "" ∨ (strip text).length < 5)) ∧
    (∀ u, clean_text text = .ok u → u = strip text) ∧
    (∀ (now : Int) (s : BlogState) (user postId : Nat) (post : Post),
      findPost s postId = some post → (clean_text text).isOk = true →
      ∃ c ∈ (add_comment now s user postId text).1.comments,
        c.post = postId ∧ c.author = user ∧ c.text = strip text) := by
  refine ⟨?_, ?_, ?_⟩
  · by_cases he : strip text = ""
    · simp [clean_text, he, Except.isOk, Except.toBool]
    · by_cases hl : (strip text).length < 5
      · simp [clean_text, he, hl, Except.isOk, Except.toBool]
      · simp [clean_text, he, hl, Except.isOk, Except.toBool]
  · intro u hu
    by_cases he : strip text = ""
    · simp [clean_text, he] at hu
    · by_cases hl : (strip text).length < 5
      · simp [clean_text, he, hl] at hu
      · simp [clean_text, he, hl] at hu
        exact hu.symm
  · intro now s user postId post hfind hok
    by_cases he : strip text = ""
    · simp [clean_text, he, Except.isOk, Except.toBool] at hok
    · by_cases hl : (strip text).length < 5
      · simp [clean_text, he, hl, Except.isOk, Except.toBool] at hok
      · refine ⟨newCommentRow now s user postId (strip text), ?_, rfl, rfl,
          rfl⟩
        simp [add_comment, hfind, clean_text, he, hl, newCommentRow]

theorem clean_text_strips_and_bounds_witness :
    clean_text " hello " = .ok "hello" ∧
    ∃ c ∈ (add_comment exNow exSt 2 1 " hello ").1.comments,
      c.post = 1 ∧ c.author = 2 ∧ c.text = strip " hello " := by
  have h := clean_text_strips_and_bounds " hello "
  refine ⟨rfl, h.2.2 exNow exSt 2 1 exPost rfl (by decide)⟩

/-- C6: deleting a `Category` (resp. a `Location`) removes it, keeps every
dependent post (same number of posts), nulls only the deleted reference on
dependent posts and leaves every other post field and every other table
unchanged. -/
theorem set_null_on_delete (s : BlogState) (categoryId locationId : Nat) :
    ((deleteCategory s categoryId).posts.length = s.posts.length ∧
     (deleteCategory s categoryId).users = s.users ∧
     (deleteCategory s categoryId).comments = s.comments ∧
     (deleteCategory s categoryId).locations = s.locations ∧
     (∀ c ∈ (deleteCategory s categoryId).categories, c.id ≠ categoryId) ∧
     (∀ p ∈ s.posts, ∃ q ∈ (deleteCategory s categoryId).posts,
        q.id = p.id ∧ q.title = p.title ∧ q.text = p.text ∧
        q.pub_date = p.pub_date ∧ q.image = p.image ∧ q.author = p.author ∧
        q.location = p.location ∧ q.is_published = p.is_published ∧
        q.created_at = p.created_at ∧
        q.category =
          (if p.category = some categoryId then none else p.category))) ∧
    ((deleteLocation s locationId).posts.length = s.posts.length ∧
     (deleteLocation s locationId).users = s.users ∧
     (deleteLocation s locationId).comments = s.comments ∧
     (deleteLocation s locationId).categories = s.categories ∧
     (∀ l ∈ (deleteLocation s locationId).locations, l.id ≠ locationId) ∧
     (∀ p ∈ s.posts, ∃ q ∈ (deleteLocation s locationId).posts,
        q.id = p.id ∧ q.title = p.title ∧ q.text = p.text ∧
        q.pub_date = p.pub_date ∧ q.image = p.image ∧ q.author = p.author ∧
        q.category = p.category ∧ q.is_published = p.is_published ∧
        q.created_at = p.created_at ∧
        q.location =
          (if p.location = some locationId then none else p.location))) := by
  constructor
  · refine ⟨by simp [deleteCategory], rfl, rfl, rfl, ?_, ?_⟩
    · intro c hc
      rw [deleteCategory] at hc
      simp only [List.mem_filter, bne_iff_ne, ne_eq] at hc
      exact hc.2
    · intro p hp
      refine ⟨if p.category == some categoryId then
          { p with category := none } else p, ?_, ?_⟩
      · rw [deleteCategory]
        exact List.mem_map_of_mem _ hp
      · by_cases h : p.category = some categoryId <;> simp [h]
  · refine ⟨by simp [deleteLocation], rfl, rfl, rfl, ?_, ?_⟩
    · intro l hl
      rw [deleteLocation] at hl
      simp only [List.mem_filter, bne_iff_ne, ne_eq] at hl
      exact hl.2
    · intro p hp
      refine ⟨if p.location == some locationId then
          { p with location := none } else p, ?_, ?_⟩
      · rw [deleteLocation]
        exact List.mem_map_of_mem _ hp
      · by_cases h : p.location = some locationId <;> simp [h]

theorem set_null_on_delete_witness :
    (deleteCategory exSt 1).comments = exSt.comments ∧
    ∃ q ∈ (deleteCategory exSt 1).posts,
      q.id = exPost.id ∧ q.title = exPost.title ∧ q.text = exPost.text ∧
      q.pub_date = exPost.pub_date ∧ q.image = exPost.image ∧
      q.author = exPost.author ∧ q.location = exPost.location ∧
      q.is_published = exPost.is_published ∧
      q.created_at = exPost.created_at ∧
      q.category = (if exPost.category = some 1 then none
        else exPost.category) := by
  have h := set_null_on_delete exSt 1 1
  exact ⟨h.1.2.2.1, h.1.2.2.2.2.2 exPost (by decide)⟩

/-- `commentRefsOk` in propositional form. -/
theorem commentRefsOk_iff (s : BlogState) :
    commentRefsOk s = true ↔
      ∀ c ∈ s.comments,
        (∃ p ∈ s.posts, p.id = c.post) ∧ ∃ u ∈ s.users, u.id = c.author := by
  simp [commentRefsOk, List.all_eq_true, List.any_eq_true, Bool.and_eq_true,
    beq_iff_eq]

/-- `userExists` in propositional form. -/
theorem userExists_iff (s : BlogState) (userId : Nat) :
    userExists s userId = true ↔ ∃ u ∈ s.users, u.id = userId := by
  simp [userExists, List.any_eq_true, beq_iff_eq]

/-- Referential integrity transfers to a state whose comments all come from
old comments (same references), whose posts keep every old post id and whose
users keep every old user id. -/
theorem refs_transfer (s t : BlogState)
    (hc : ∀ c ∈ t.comments,
      ∃ d ∈ s.comments, d.post = c.post ∧ d.author = c.author)
    (hp : ∀ p ∈ s.posts, ∃ q ∈ t.posts, q.id = p.id)
    (hu : ∀ u ∈ s.users, ∃ v ∈ t.users, v.id = u.id)
    (hinv : ∀ c ∈ s.comments,
      (∃ p ∈ s.posts, p.id = c.post) ∧ ∃ u ∈ s.users, u.id = c.author) :
    ∀ c ∈ t.comments,
      (∃ p ∈ t.posts, p.id = c.post) ∧ ∃ u ∈ t.users, u.id = c.author := by
  intro c hct
  obtain ⟨d, hd, hdp, hda⟩ := hc c hct
  obtain ⟨⟨p, hps, hpid⟩, u, hus, huid⟩ := hinv d hd
  obtain ⟨q, hqt, hqid⟩ := hp p hps
  obtain ⟨v, hvt, hvid⟩ := hu u hus
  exact ⟨⟨q, hqt, by rw [hqid, hpid, hdp]⟩, v, hvt, by rw [hvid, huid, hda]⟩

/-- C5: every stored comment references an existing post and an existing
author, and every operation of the application (the mutating views, with
their acting user authenticated, plus the model-level category/location
deletions) preserves this invariant; in particular deleting a post also
deletes the comments referencing it. -/
theorem comment_integrity_preserved (now : Int) (s : BlogState) (op : Op)
    (hinv : commentRefsOk s = true) (huser : actingUserOk s op = true) :
    commentRefsOk (step now s op) = true := by
  rw [commentRefsOk_iff] at hinv ⊢
  cases op with
  | opRegister m v u =>
    refine refs_transfer s _ ?_ ?_ ?_ hinv
    · intro c hct
      rw [step, register] at hct
      split at hct <;> [skip; exact ⟨c, hct, rfl, rfl⟩]
      split at hct <;> exact ⟨c, hct, rfl, rfl⟩
    · intro p hps
      rw [step, register]
      split <;> [skip; exact ⟨p, hps, rfl⟩]
      split <;> exact ⟨p, hps, rfl⟩
    · intro w hws
      rw [step, register]
      split <;> [skip; exact ⟨w, hws, rfl⟩]
      split
      · exact ⟨w, List.mem_append_left _ hws, rfl⟩
      · exact ⟨w, hws, rfl⟩
  | opEditProfile u m v d =>
    refine refs_transfer s _ ?_ ?_ ?_ hinv
    · intro c hct
      rw [step, edit_profile] at hct
      split at hct <;> [skip; exact ⟨c, hct, rfl, rfl⟩]
      split at hct <;> exact ⟨c, hct, rfl, rfl⟩
    · intro p hps
      rw [step, edit_profile]
      split <;> [skip; exact ⟨p, hps, rfl⟩]
      split <;> exact ⟨p, hps, rfl⟩
    · intro w hws
      rw [step, edit_profile]
      split <;> [skip; exact ⟨w, hws, rfl⟩]
      split
      · refine ⟨if w.id == u then
          { w with username := d.username, email := d.email,
                   first_name := d.first_name, last_name := d.last_name }
          else w, List.mem_map_of_mem _ hws, ?_⟩
        by_cases h : w.id = u <;> simp [h]
      · exact ⟨w, hws, rfl⟩
  | opCreatePost env u m d =>
    refine refs_transfer s _ ?_ ?_ ?_ hinv
    · intro c hct
      rw [step, create_post] at hct
      split at hct <;> [skip; exact ⟨c, hct, rfl, rfl⟩]
      split at hct <;> exact ⟨c, hct, rfl, rfl⟩
    · intro p hps
      rw [step, create_post]
      split <;> [skip; exact ⟨p, hps, rfl⟩]
      split
      · exact ⟨p, List.mem_append_left _ hps, rfl⟩
      · exact ⟨p, hps, rfl⟩
    · intro w hws
      rw [step, create_post]
      split <;> [skip; exact ⟨w, hws, rfl⟩]
      split <;> exact ⟨w, hws, rfl⟩
  | opEditPost env u pid m d =>
    refine refs_transfer s _ ?_ ?_ ?_ hinv
    · intro c hct
      rw [step, edit_post] at hct
      split at hct
      · exact ⟨c, hct, rfl, rfl⟩
      · split at hct <;> [exact ⟨c, hct, rfl, rfl⟩; skip]
        split at hct <;> [skip; exact ⟨c, hct, rfl, rfl⟩]
        split at hct <;> exact ⟨c, hct, rfl, rfl⟩
    · intro p hps
      rw [step, edit_post]
      split
      · exact ⟨p, hps, rfl⟩
      · split <;> [exact ⟨p, hps, rfl⟩; skip]
        split <;> [skip; exact ⟨p, hps, rfl⟩]
        split
        · refine ⟨if p.id == pid then applyPostForm d p else p,
            List.mem_map_of_mem _ hps, ?_⟩
          by_cases h : p.id = pid <;> simp [h, applyPostForm]
        · exact ⟨p, hps, rfl⟩
    · intro w hws
      rw [step, edit_post]
      split
      · exact ⟨w, hws, rfl⟩
      · split <;> [exact ⟨w, hws, rfl⟩; skip]
        split <;> [skip; exact ⟨w, hws, rfl⟩]
        split <;> exact ⟨w, hws, rfl⟩
  | opDeletePost u pid m =>
    rw [step, delete_post]
    split
    · exact hinv
    · split <;> [exact hinv; skip]
      split
      · intro c hct
        simp only [List.mem_filter, bne_iff_ne, ne_eq] at hct
        obtain ⟨hcs, hcp⟩ := hct
        obtain ⟨⟨p, hps, hpid⟩, u', hus, huid⟩ := hinv c hcs
        refine ⟨⟨p, ?_, hpid⟩, u', hus, huid⟩
        simp only [List.mem_filter, bne_iff_ne, ne_eq]
        exact ⟨hps, by rw [hpid]; exact hcp⟩
      · exact hinv
  | opAddComment u pid t =>
    rw [actingUserOk, userExists_iff] at huser
    rw [step, add_comment]
    split
    · exact hinv
    · rename_i post hfind
      split
      · intro c hct
        simp only [List.mem_append, List.mem_singleton] at hct
        rcases hct with hcs | rfl
        · obtain ⟨⟨p, hps, hpid⟩, u', hus, huid⟩ := hinv c hcs
          exact ⟨⟨p, hps, hpid⟩, u', hus, huid⟩
        · refine ⟨⟨post, List.mem_of_find?_eq_some hfind, ?_⟩, huser⟩
          have := List.find?_some hfind
          simpa [beq_iff_eq] using this
      · exact hinv
  | opEditComment u pid cid m t =>
    refine refs_transfer s _ ?_ ?_ ?_ hinv
    · intro c hct
      rw [step, edit_comment] at hct
      split at hct
      · exact ⟨c, hct, rfl, rfl⟩
      · split at hct <;> [exact ⟨c, hct, rfl, rfl⟩; skip]
        split at hct <;> [skip; exact ⟨c, hct, rfl, rfl⟩]
        split at hct
        · rw [List.mem_map] at hct
          obtain ⟨d0, hd0, rfl⟩ := hct
          refine ⟨d0, hd0, ?_, ?_⟩ <;>
            by_cases h : d0.id = cid <;> simp [h]
        · exact ⟨c, hct, rfl, rfl⟩
    · intro p hps
      rw [step, edit_comment]
      split
      · exact ⟨p, hps, rfl⟩
      · split <;> [exact ⟨p, hps, rfl⟩; skip]
        split <;> [skip; exact ⟨p, hps, rfl⟩]
        split <;> exact ⟨p, hps, rfl⟩
    · intro w hws
      rw [step, edit_comment]
      split
      · exact ⟨w, hws, rfl⟩
      · split <;> [exact ⟨w, hws, rfl⟩; skip]
        split <;> [skip; exact ⟨w, hws, rfl⟩]
        split <;> exact ⟨w, hws, rfl⟩
  | opDeleteComment u pid cid m =>
    refine refs_transfer s _ ?_ ?_ ?_ hinv
    · intro c hct
      rw [step, delete_comment] at hct
      split at hct
      · exact ⟨c, hct, rfl, rfl⟩
      · split at hct <;> [exact ⟨c, hct, rfl, rfl⟩; skip]
        split at hct
        · rw [List.mem_filter] at hct
          exact ⟨c, hct.1, rfl, rfl⟩
        · exact ⟨c, hct, rfl, rfl⟩
    · intro p hps
      rw [step, delete_comment]
      split
      · exact ⟨p, hps, rfl⟩
      · split <;> [exact ⟨p, hps, rfl⟩; skip]
        split <;> exact ⟨p, hps, rfl⟩
    · intro w hws
      rw [step, delete_comment]
      split
      · exact ⟨w, hws, rfl⟩
      · split <;> [exact ⟨w, hws, rfl⟩; skip]
        split <;> exact ⟨w, hws, rfl⟩
  | opDeleteCategory cid =>
    refine refs_transfer s _ ?_ ?_ ?_ hinv
    · intro c hct
      rw [step, deleteCategory] at hct
      exact ⟨c, hct, rfl, rfl⟩
    · intro p hps
      rw [step, deleteCategory]
      refine ⟨if p.category == some cid then { p with category := none }
        else p, List.mem_map_of_mem _ hps, ?_⟩
      by_cases h : p.category = some cid <;> simp [h]
    · intro w hws
      rw [step, deleteCategory]
      exact ⟨w, hws, rfl⟩
  | opDeleteLocation lid =>
    refine refs_transfer s _ ?_ ?_ ?_ hinv
    · intro c hct
      rw [step, deleteLocation] at hct
      exact ⟨c, hct, rfl, rfl⟩
    · intro p hps
      rw [step, deleteLocation]
      refine ⟨if p.location == some lid then { p with location := none }
        else p, List.mem_map_of_mem _ hps, ?_⟩
      by_cases h : p.location = some lid <;> simp [h]
    · intro w hws
      rw [step, deleteLocation]
      exact ⟨w, hws, rfl⟩

theorem comment_integrity_preserved_witness :
    commentRefsOk (step exNow exStC (Op.opAddComment 2 1 "great post")) =
      true :=
  comment_integrity_preserved exNow exStC (Op.opAddComment 2 1 "great post")
    (by decide) (by decide)

/-- C4 counterexample: the comment text "hi" fails validation, yet
`add_comment` responds with a redirect to the post's detail page instead of
re-rendering the form with its errors (nothing is persisted, though). -/
theorem add_comment_invalid_redirects_counterexample :
    (clean_text "hi").isOk = false ∧
    add_comment exNow exSt 2 1 "hi" = (exSt, .redirect (.postDetail 1)) := by
  constructor
  · decide
  · rfl

/-- C4 (amended): a form POST that fails validation persists nothing; for
registration, post create/edit and comment edit the handler re-renders the
page with the invalid form, but for comment add it responds with a redirect
to the post's detail page, discarding the validation errors. -/
theorem invalid_form_post_behaviour (now : Int) (pytestEnv : Bool)
    (s : BlogState) (user : Nat) :
    (∀ u, register s HttpMethod.post false u =
      (s, .render "registration/registration_form.html")) ∧
    (∀ d, postFormValid pytestEnv now none none d = false →
      create_post now pytestEnv s user HttpMethod.post d =
        (s, .render "blog/create.html")) ∧
    (∀ postId post d, findPost s postId = some post → post.author = user →
      postFormValid pytestEnv now (some post.id) (some post.pub_date) d =
        false →
      edit_post now pytestEnv s user postId HttpMethod.post d =
        (s, .render "blog/create.html")) ∧
    (∀ postId commentId comment t e,
      findComment s postId commentId = some comment →
      comment.author = user → clean_text t = .error e →
      edit_comment s user postId commentId HttpMethod.post t =
        (s, .render "blog/comment.html")) ∧
    (∀ postId post t e, findPost s postId = some post →
      clean_text t = .error e →
      add_comment now s user postId t =
        (s, .redirect (.postDetail postId))) := by
  refine ⟨fun u => rfl, fun d hd => ?_, fun postId post d hfind hown hd => ?_,
    fun postId commentId comment t e hfind hown ht => ?_,
    fun postId post t e hfind ht => ?_⟩
  · simp [create_post, hd]
  · simp [edit_post, hfind, hown, hd]
  · simp [edit_comment, hfind, hown, ht]
  · simp [add_comment, hfind, ht]

theorem invalid_form_post_behaviour_witness :
    register exStC HttpMethod.post false exCarol =
      (exStC, .render "registration/registration_form.html") ∧
    edit_comment exStC 1 1 1 HttpMethod.post "hey" =
      (exStC, .render "blog/comment.html") ∧
    add_comment exNow exStC 1 1 "hey" =
      (exStC, .redirect (.postDetail 1)) := by
  have h := invalid_form_post_behaviour exNow false exStC 1
  exact ⟨h.1 exCarol,
    h.2.2.2.1 1 1 exComment "hey" "comment shorter than 5 characters" rfl
      rfl rfl,
    h.2.2.2.2 1 exPost "hey" "comment shorter than 5 characters" rfl rfl⟩

/-- C7: a form POST that passes validation (by the owner, where an ownership
check guards the handler) persists the submitted change and responds with a
redirect — to the login page after registration, to the user's profile after
a profile edit, post creation or post deletion, and to the post's detail
page after a post edit or a comment add/edit/delete — never with a rendered
page. -/
theorem valid_form_post_redirects (now : Int) (pytestEnv : Bool)
    (s : BlogState) (user : Nat) :
    (∀ u, (register s HttpMethod.post true u).2 = .redirect .login ∧
      u ∈ (register s HttpMethod.post true u).1.users) ∧
    (∀ d, (edit_profile s user HttpMethod.post true d).2 =
        .redirect (.profile user) ∧
      ∀ x ∈ (edit_profile s user HttpMethod.post true d).1.users,
        x.id = user → x.username = d.username ∧ x.email = d.email ∧
          x.first_name = d.first_name ∧ x.last_name = d.last_name) ∧
    (∀ d, postFormValid pytestEnv now none none d = true →
      (create_post now pytestEnv s user HttpMethod.post d).2 =
        .redirect (.profile user) ∧
      ∃ q ∈ (create_post now pytestEnv s user HttpMethod.post d).1.posts,
        q.author = user ∧ q.title = d.title ∧ q.text = d.text ∧
          q.category = d.category) ∧
    (∀ postId post d, findPost s postId = some post → post.author = user →
      postFormValid pytestEnv now (some post.id) (some post.pub_date) d =
        true →
      (edit_post now pytestEnv s user postId HttpMethod.post d).2 =
        .redirect (.postDetail postId) ∧
      ∀ q ∈ (edit_post now pytestEnv s user postId HttpMethod.post d).1.posts,
        q.id = postId → q.title = d.title ∧ q.text = d.text) ∧
    (∀ postId post, findPost s postId = some post → post.author = user →
      (delete_post s user postId HttpMethod.post).2 =
        .redirect (.profile user) ∧
      ∀ q ∈ (delete_post s user postId HttpMethod.post).1.posts,
        q.id ≠ postId) ∧
    (∀ postId post t cleaned, findPost s postId = some post →
      clean_text t = .ok cleaned →
      (add_comment now s user postId t).2 = .redirect (.postDetail postId) ∧
      ∃ c ∈ (add_comment now s user postId t).1.comments,
        c.post = postId ∧ c.author = user ∧ c.text = cleaned) ∧
    (∀ postId commentId comment t cleaned,
      findComment s postId commentId = some comment →
      comment.author = user → clean_text t = .ok cleaned →
      (edit_comment s user postId commentId HttpMethod.post t).2 =
        .redirect (.postDetail postId) ∧
      ∀ c ∈ (edit_comment s user postId commentId HttpMethod.post t).1.comments,
        c.id = commentId → c.text = cleaned) ∧
    (∀ postId commentId comment,
      findComment s postId commentId = some comment →
      comment.author = user →
      (delete_comment s user postId commentId HttpMethod.post).2 =
        .redirect (.postDetail postId) ∧
      ∀ c ∈ (delete_comment s user postId commentId HttpMethod.post).1.comments,
        c.id ≠ commentId) := by
  refine ⟨fun u => ⟨rfl, ?_⟩, fun d => ⟨rfl, ?_⟩, fun d hd => ?_,
    fun postId post d hfind hown hd => ?_, fun postId post hfind hown => ?_,
    fun postId post t cleaned hfind ht => ?_,
    fun postId commentId comment t cleaned hfind hown ht => ?_,
    fun postId commentId comment hfind hown => ?_⟩
  · simp [register]
  · intro x hx hid
    simp only [edit_profile, if_true, List.mem_map] at hx
    obtain ⟨y, hy, rfl⟩ := hx
    by_cases h : y.id = user
    · simp [h]
    · simp only [beq_iff_eq, h, if_false] at hid ⊢
  · constructor
    · simp [create_post, hd]
    · have hst : (create_post now pytestEnv s user HttpMethod.post d).1.posts =
          s.posts ++ [newPostRow now s user d] := by
        simp [create_post, hd]
      rw [hst]
      exact ⟨_, List.mem_append_right _ (List.mem_singleton.mpr rfl),
        rfl, rfl, rfl, rfl⟩
  · constructor
    · simp [edit_post, hfind, hown, hd]
    · intro q hq hqid
      simp only [edit_post, hfind, hown, bne_self_eq_false, Bool.false_eq_true,
        if_false, hd, if_true, List.mem_map] at hq
      obtain ⟨y, hy, rfl⟩ := hq
      by_cases h : y.id = postId
      · simp [h, applyPostForm]
      · rw [applyPostForm] at hqid ⊢
        simp only [beq_iff_eq, h, if_false] at hqid
  · constructor
    · simp [delete_post, hfind, hown]
    · intro q hq
      simp only [delete_post, hfind, hown, bne_self_eq_false,
        Bool.false_eq_true, if_false, if_true, List.mem_filter,
        bne_iff_ne, ne_eq] at hq
      exact hq.2
  · constructor
    · simp [add_comment, hfind, ht]
    · have hst : (add_comment now s user postId t).1.comments =
          s.comments ++ [newCommentRow now s user postId cleaned] := by
        simp [add_comment, hfind, ht]
      rw [hst]
      exact ⟨_, List.mem_append_right _ (List.mem_singleton.mpr rfl),
        rfl, rfl, rfl⟩
  · constructor
    · simp [edit_comment, hfind, hown, ht]
    · intro c hc hcid
      simp only [edit_comment, hfind, hown, bne_self_eq_false,
        Bool.false_eq_true, if_false, if_true, ht, List.mem_map] at hc
      obtain ⟨y, hy, rfl⟩ := hc
      by_cases h : y.id = commentId
      · simp [h]
      · simp only [beq_iff_eq, h, if_false] at hcid
  · constructor
    · simp [delete_comment, hfind, hown]
    · intro c hc
      simp only [delete_comment, hfind, hown, bne_self_eq_false,
        Bool.false_eq_true, if_false, if_true, List.mem_filter,
        bne_iff_ne, ne_eq] at hc
      exact hc.2

theorem valid_form_post_redirects_witness :
    (register exStC HttpMethod.post true exCarol).2 = .redirect .login ∧
    (edit_profile exStC 1 HttpMethod.post true exProfileForm).2 =
      .redirect (.profile 1) ∧
    (create_post exNow false exStC 1 HttpMethod.post exForm).2 =
      .redirect (.profile 1) ∧
    (edit_post exNow false exStC 1 1 HttpMethod.post exForm).2 =
      .redirect (.postDetail 1) ∧
    (delete_post exStC 1 1 HttpMethod.post).2 = .redirect (.profile 1) ∧
    (add_comment exNow exStC 1 1 " hello ").2 = .redirect (.postDetail 1) ∧
    (edit_comment exStC 1 1 1 HttpMethod.post " hello ").2 =
      .redirect (.postDetail 1) ∧
    (delete_comment exStC 1 1 1 HttpMethod.post).2 =
      .redirect (.postDetail 1) := by
  have h := valid_form_post_redirects exNow false exStC 1
  exact ⟨(h.1 exCarol).1, (h.2.1 exProfileForm).1,
    (h.2.2.1 exForm (by decide)).1,
    (h.2.2.2.1 1 exPost exForm rfl rfl (by decide)).1,
    (h.2.2.2.2.1 1 exPost rfl rfl).1,
    (h.2.2.2.2.2.1 1 exPost " hello " "hello" rfl rfl).1,
    (h.2.2.2.2.2.2.1 1 1 exComment " hello " "hello" rfl rfl rfl).1,
    (h.2.2.2.2.2.2.2 1 1 exComment rfl rfl).1⟩

/-- C1 counterexample: the claim says the author can always view their own
post on the detail page, but for a published post whose category reference
is null the detail view raises an exception even for the author. -/
theorem author_detail_view_counterexample :
    findPost exStNullCat 1 = some exPostNullCat ∧
    exPostNullCat.author = 1 ∧ exPostNullCat.is_published = true ∧
    post_detail exNow exStNullCat (some 1) 1 =
      .serverError "AttributeError" :=
  ⟨rfl, rfl, rfl, rfl⟩

/-- C1 (amended): a post is listed on the index, on its (published)
category's page and on its author's profile as seen by another requester,
and is served by the detail page to a non-author requester, exactly when its
own published flag is set, its category reference resolves to a published
category, and its publication timestamp is not later than the current time;
the author can always view their own post on the detail page except when
the post's published flag is set and its category reference does not
resolve, in which case the visibility check raises an exception. -/
theorem post_visibility (now : Int) (s : BlogState) (postId : Nat)
    (post : Post) (hfind : findPost s postId = some post) :
    (post ∈ get_published_posts now s ↔
      publiclyVisible now s post = true) ∧
    (∀ slug c,
      s.categories.find? (fun x => x.slug == slug && x.is_published) =
        some c →
      (post ∈ (category_posts now s slug).2 ↔
        publiclyVisible now s post = true ∧ post.category = some c.id)) ∧
    (∀ username profile requester,
      findUserByName s username = some profile →
      requester ≠ some profile.id →
      (post ∈ (user_profile now s requester username).2 ↔
        publiclyVisible now s post = true ∧ post.author = profile.id)) ∧
    (∀ requester, requester ≠ some post.author →
      (post_detail now s requester postId = .render "blog/detail.html" ↔
        publiclyVisible now s post = true)) ∧
    (post_detail now s (some post.author) postId =
        .render "blog/detail.html" ↔ detailBroken s post = false) := by
  have hmem : post ∈ s.posts := List.mem_of_find?_eq_some hfind
  refine ⟨?_, ?_, ?_, ?_, ?_⟩
  · simp [get_published_posts, List.mem_filter, hmem, publiclyVisible]
  · intro slug c hc
    simp only [category_posts, hc]
    simp [List.mem_filter, get_published_posts, hmem, publiclyVisible,
      beq_iff_eq]
    tauto
  · intro username profile requester hu hne
    have hreq : (requester == some profile.id) = false :=
      beq_eq_false_iff_ne.mpr hne
    simp only [user_profile, hu, hreq, Bool.false_eq_true, if_false]
    simp [List.mem_filter, get_published_posts, hmem, publiclyVisible,
      beq_iff_eq]
    tauto
  · intro requester hne
    have hbne : (requester != some post.author) = true := by
      simp [bne_iff_ne, hne]
    simp only [post_detail, hfind, publiclyVisible, categoryIsPublished]
    cases hp : post.is_published
    · simp [detailAccessible, hp, hbne]
    · cases hc2 : post.category with
      | none => simp [detailAccessible, hp, hc2]
      | some cid =>
        cases hfc : findCategory s cid with
        | none => simp [detailAccessible, hp, hc2, hfc]
        | some c =>
          by_cases hacc :
            (c.is_published && decide (post.pub_date ≤ now)) = true
          · simp [detailAccessible, hp, hc2, hfc, hacc]
          · simp [detailAccessible, hp, hc2, hfc, hacc, hbne]
  · simp only [post_detail, hfind, detailBroken]
    cases hp : post.is_published
    · simp [detailAccessible, hp]
    · cases hc2 : post.category with
      | none => simp [detailAccessible, hp, hc2]
      | some cid =>
        cases hfc : findCategory s cid with
        | none => simp [detailAccessible, hp, hc2, hfc]
        | some c => simp [detailAccessible, hp, hc2, hfc]

theorem post_visibility_witness :
    exPost ∈ get_published_posts exNow exSt ∧
    exPost ∈ (category_posts exNow exSt "general").2 ∧
    exPost ∈ (user_profile exNow exSt (some 2) "alice").2 ∧
    post_detail exNow exSt (some 2) 1 = .render "blog/detail.html" ∧
    post_detail exNow exSt (some 1) 1 = .render "blog/detail.html" := by
  have h := post_visibility exNow exSt 1 exPost rfl
  refine ⟨h.1.mpr (by decide), ?_, ?_, ?_, ?_⟩
  · exact (h.2.1 "general" exCat rfl).mpr (by decide)
  · exact (h.2.2.1 "alice" exAlice (some 2) rfl (by decide)).mpr (by decide)
  · exact (h.2.2.2.1 (some 2) (by decide)).mpr (by decide)
  · exact h.2.2.2.2.mpr (by decide)
